import Mathlib

/-
Verification of the Sentiment-Dashboard backend (FastAPI + transformers).

Shallow embedding of:
  backend/app/models.py  (SentimentAnalyzer.analyze_batch — chunked inference),
  backend/app/utils.py   (validate_csv),
  backend/app/main.py    (the /analyze endpoint: validation, aggregation,
                          and the try/except error mapping).

The pretrained tokenizer/model pair is external to the repository; following
the architecture it is treated as an opaque scoring function from a text to
the softmax-normalized two-class probability row (index 0 = negative,
index 1 = positive), here a parameter `scores : String → ℚ × ℚ`.  A second,
chunk-level fallible parameter `modelRun` is used where the possibility of
the classifier raising matters.  Probabilities are rationals; torch argmax
over two entries returns the first maximal index, embedded as
`if p.1 < p.2 then 1 else 0`.
-/

namespace SentimentDashboard

/-- Sentiment labels produced by `analyze_batch` in models.py:
`"NEGATIVE" if sentiment_id == 0 else "POSITIVE"`. -/
inductive Label where
  | NEGATIVE : Label
  | POSITIVE : Label
  deriving DecidableEq, BEq, Repr

/-- One element of the result list built by `analyze_batch`:
`{"text": text, "label": label, "score": score}`. -/
structure ReviewResult where
  text : String
  label : Label
  score : ℚ
  deriving DecidableEq, BEq, Repr

/-- Fuel-indexed worker for the chunking loop; the fuel only serves
structural termination and is irrelevant once it is at least the list
length (each step consumes one fuel and at least one element). -/
def chunkListF (fuel b : Nat) (xs : List α) : List (List α) :=
  match fuel, b, xs with
  | _, _, [] => []
  | _, 0, _ => []
  | 0, _ + 1, _ :: _ => []
  | f + 1, b' + 1, x :: rest =>
      (x :: rest).take (b' + 1) :: chunkListF f (b' + 1) (rest.drop b')

/-- The chunking performed by the loop
`for i in range(0, len(texts), self.batch_size): batch_texts = texts[i:i+self.batch_size]`
in models.py: consecutive slices of size `b` (the last may be shorter).
Python raises for step 0, so `b = 0` is outside the modelled domain and
returns `[]` here; every theorem below assumes `1 ≤ b`. -/
def chunkList (b : Nat) (xs : List α) : List (List α) :=
  chunkListF xs.length b xs

/-- Per-item result construction from the softmax probability row, from
models.py lines 48-54: `sentiment_id = scores[j].argmax().item()`,
`label = "NEGATIVE" if sentiment_id == 0 else "POSITIVE"`,
`score = scores[j][sentiment_id].item()`.  torch argmax returns the first
maximal index, so over two entries it is 1 exactly when `p.1 < p.2`. -/
def mkResult (text : String) (p : ℚ × ℚ) : ReviewResult :=
  let sentiment_id : Nat := if p.1 < p.2 then 1 else 0
  { text := text
    label := if sentiment_id = 0 then Label.NEGATIVE else Label.POSITIVE
    score := if sentiment_id = 0 then p.1 else p.2 }

/-- Classification of a single text through the opaque scoring function. -/
def analyzeItem (scores : String → ℚ × ℚ) (text : String) : ReviewResult :=
  mkResult text (scores text)

/-- `SentimentAnalyzer.analyze_batch` of models.py with the classifier
abstracted per text: chunk the input, classify each chunk, append the
chunk results to the running list in order, return the flat list.
The `await asyncio.sleep(0.01)` between chunks does not touch the data. -/
def analyze_batch (scores : String → ℚ × ℚ) (batch_size : Nat)
    (texts : List String) : List ReviewResult :=
  (chunkList batch_size texts).foldl
    (fun results chunk => results ++ chunk.map (analyzeItem scores)) []

/-- Loop body of `analyze_batch` with a fallible chunk-level classifier:
one `modelRun` invocation per chunk (`outputs = self.model(**batch_inputs)`),
pairing text j of the chunk with probability row j of the output.  An
exception from `modelRun` aborts the loop: the accumulated results are
discarded and the error is returned. -/
def analyze_batchE_go (modelRun : List String → Except ε (List (ℚ × ℚ))) :
    List (List String) → List ReviewResult → Except ε (List ReviewResult)
  | [], results => Except.ok results
  | chunk :: rest, results =>
    match modelRun chunk with
    | Except.error e => Except.error e
    | Except.ok rows =>
        analyze_batchE_go modelRun rest
          (results ++ (chunk.zip rows).map (fun p => mkResult p.1 p.2))

/-- `SentimentAnalyzer.analyze_batch` with the possibility of the underlying
model raising: there is no try/except in models.py, so the first failing
chunk's exception propagates and no result list is returned. -/
def analyze_batchE (modelRun : List String → Except ε (List (ℚ × ℚ)))
    (batch_size : Nat) (texts : List String) : Except ε (List ReviewResult) :=
  analyze_batchE_go modelRun (chunkList batch_size texts) []

/-- A parsed CSV as pandas exposes it to utils.py and main.py: the named
columns and the cell grid (a missing value is `none`; `fillna` replaces it). -/
structure DataFrame where
  columns : List String
  cells : List (List (Option String))
  deriving DecidableEq

/-- Row count of the frame, `len(df)`. -/
def DataFrame.nrows (df : DataFrame) : Nat := df.cells.length

/-- `validate_csv` of utils.py: first the check
`if 'review' not in df.columns`, then `if df.empty` (pandas: true when either
axis has length 0), else pass. -/
def validate_csv (df : DataFrame) : Option String :=
  if "review" ∉ df.columns then
    some "CSV file must contain a \x27review\x27 column"
  else if df.nrows = 0 ∨ df.columns.length = 0 then
    some "CSV file is empty"
  else
    none

/-- The review column extraction and cleaning of main.py:
`df['review'] = df['review'].fillna('').astype(str)` followed by
`df['review'].tolist()`.  The column is located by name; a missing cell
becomes the empty string. -/
def reviewColumn (df : DataFrame) : List String :=
  match df.columns.indexOf? "review" with
  | some j => df.cells.map (fun row => (row.getD j none).getD "")
  | none => []

/-- The `summary` object assembled in main.py. -/
structure Summary where
  positive_count : Nat
  negative_count : Nat
  positive_avg_confidence : ℚ
  negative_avg_confidence : ℚ
  total_reviews : Nat
  deriving DecidableEq, Repr

/-- Summary statistics of main.py lines 59-82:
`positive_count = sum(1 for r in results if r['label'] == 'POSITIVE')`,
likewise for negative; each average starts at 0 and is only assigned
`sum(scores)/count` under `if count > 0`; `total_reviews = len(results)`. -/
def summarize (results : List ReviewResult) : Summary :=
  let positive_count := results.countP (fun r => r.label == Label.POSITIVE)
  let negative_count := results.countP (fun r => r.label == Label.NEGATIVE)
  let positive_avg_score : ℚ :=
    if 0 < positive_count then
      ((results.filter (fun r => r.label == Label.POSITIVE)).map
        (fun r => r.score)).sum / (positive_count : ℚ)
    else 0
  let negative_avg_score : ℚ :=
    if 0 < negative_count then
      ((results.filter (fun r => r.label == Label.NEGATIVE)).map
        (fun r => r.score)).sum / (negative_count : ℚ)
    else 0
  { positive_count := positive_count
    negative_count := negative_count
    positive_avg_confidence := positive_avg_score
    negative_avg_confidence := negative_avg_score
    total_reviews := results.length }

/-- A Python exception as the endpoint can observe it: either a FastAPI
`HTTPException(status_code, detail)` or any other exception carrying its
string representation. -/
inductive PyExc where
  | http (status : Nat) (detail : String) : PyExc
  | other (message : String) : PyExc
  deriving DecidableEq

/-- `str(e)` for the two exception shapes; starlette renders an
HTTPException as `"{status_code}: {detail}"`. -/
def pyExcStr : PyExc → String
  | PyExc.http s d => Nat.repr s ++ ": " ++ d
  | PyExc.other m => m

/-- Successful JSON body of `/analyze`: the summary and the original rows,
each with its sentiment and confidence appended. -/
structure AnalyzeResponse where
  summary : Summary
  reviews : List (List (Option String) × Label × ℚ)
  deriving DecidableEq

/-- Outcome of a request to the endpoint: a 200 body, or an HTTP error
status with its detail string. -/
inductive EndpointResult where
  | success (body : AnalyzeResponse) : EndpointResult
  | httpError (status : Nat) (detail : String) : EndpointResult
  deriving DecidableEq

/-- The `try:` block of `analyze_reviews` in main.py: CSV parsing (a parse
failure is an exception), `validate_csv` (a failure raises
`HTTPException(400, message)` — still inside the block), then cleaning,
inference with the default batch size 16, and response assembly. -/
def analyzeTryBlock (scores : String → ℚ × ℚ)
    (parsed : Except String DataFrame) : Except PyExc AnalyzeResponse :=
  match parsed with
  | Except.error m => Except.error (PyExc.other m)
  | Except.ok df =>
    match validate_csv df with
    | some msg => Except.error (PyExc.http 400 msg)
    | none =>
      let results := analyze_batch scores 16 (reviewColumn df)
      Except.ok
        { summary := summarize results
          reviews := (df.cells.zip results).map
            (fun p => (p.1, p.2.label, p.2.score)) }

/-- Extension check `file.filename.endswith(".csv")` of main.py, modelled
over the character sequences of the two strings. -/
def endsWithDotCsv (filename : String) : Bool :=
  (".csv".data).isSuffixOf filename.data

/-- The `/analyze` handler of main.py.  The extension check raises its 400
outside the `try:` block.  Everything raised inside the block — the
validation HTTPException included, since `except Exception` catches
HTTPException subclasses — is converted to
`HTTPException(500, "Error processing CSV: " + str(e))`. -/
def analyze_reviews (scores : String → ℚ × ℚ) (filename : String)
    (parsed : Except String DataFrame) : EndpointResult :=
  if endsWithDotCsv filename then
    match analyzeTryBlock scores parsed with
    | Except.ok body => EndpointResult.success body
    | Except.error e =>
        EndpointResult.httpError 500 ("Error processing CSV: " ++ pyExcStr e)
  else
    EndpointResult.httpError 400 "Only CSV files are accepted"

/-- Number of results carrying a given label (specification helper for the
aggregator theorems). -/
def countLabel (l : Label) (results : List ReviewResult) : Nat :=
  (results.filter (fun r => r.label == l)).length

/-- Total score mass of the results carrying a given label. -/
def sumScores (l : Label) (results : List ReviewResult) : ℚ :=
  ((results.filter (fun r => r.label == l)).map (fun r => r.score)).sum

/-- A two-class softmax output row: nonnegative entries summing to 1. -/
def IsDistrib (p : ℚ × ℚ) : Prop := 0 ≤ p.1 ∧ 0 ≤ p.2 ∧ p.1 + p.2 = 1

instance : DecidablePred IsDistrib := fun p => by
  unfold IsDistrib; infer_instance

/-- Fuel irrelevance: any fuel at least the list length computes the same
chunking. -/
theorem chunkListF_fuel_congr (b' : Nat) :
    (f : Nat) → ∀ (g : Nat) (xs : List α), xs.length ≤ f → xs.length ≤ g →
      chunkListF f (b' + 1) xs = chunkListF g (b' + 1) xs
  | 0 => by
      intro g xs hf _
      have hxs : xs = [] := List.length_eq_zero.mp (Nat.le_zero.mp hf)
      subst hxs
      cases g <;> rfl
  | f + 1 => by
      intro g xs hf hg
      match xs with
      | [] => cases g <;> rfl
      | x :: rest =>
        match g with
        | 0 => simp at hg
        | g' + 1 =>
          show (x :: rest).take (b' + 1) :: chunkListF f (b' + 1) (rest.drop b') =
            (x :: rest).take (b' + 1) :: chunkListF g' (b' + 1) (rest.drop b')
          congr 1
          refine chunkListF_fuel_congr b' f g' (rest.drop b') ?_ ?_
          · rw [List.length_drop]
            rw [List.length_cons] at hf
            omega
          · rw [List.length_drop]
            rw [List.length_cons] at hg
            omega

/-- Unfolding equation: chunking the empty list gives no chunks. -/
theorem chunkList_nil (b : Nat) : chunkList b ([] : List α) = [] := by
  cases b <;> rfl

/-- Unfolding equation for a positive batch size on a nonempty list. -/
theorem chunkList_cons (b' : Nat) (x : α) (rest : List α) :
    chunkList (b' + 1) (x :: rest) =
      (x :: rest).take (b' + 1) :: chunkList (b' + 1) (rest.drop b') := by
  show chunkListF (x :: rest).length (b' + 1) (x :: rest) = _
  rw [List.length_cons]
  show (x :: rest).take (b' + 1) :: chunkListF rest.length (b' + 1) (rest.drop b') = _
  congr 1
  refine chunkListF_fuel_congr b' rest.length (rest.drop b').length (rest.drop b') ?_
    (Nat.le_refl _)
  rw [List.length_drop]
  omega

/-- Concatenating the chunks returns the original list (batch size ≥ 1). -/
theorem chunkList_flatten (b' : Nat) :
    (xs : List α) → (chunkList (b' + 1) xs).flatten = xs
  | [] => by simp [chunkList_nil]
  | x :: rest => by
      rw [chunkList_cons, List.flatten_cons, chunkList_flatten b' (rest.drop b'),
        List.take_succ_cons, List.cons_append, List.take_append_drop]
termination_by xs => xs.length
decreasing_by simp only [List.length_drop, List.length_cons]; omega

/-- Every chunk has at most the batch size many elements. -/
theorem chunkList_mem_length_le (b' : Nat) :
    (xs : List α) → ∀ c ∈ chunkList (b' + 1) xs, c.length ≤ b' + 1
  | [] => by simp [chunkList_nil]
  | x :: rest => by
      intro c hc
      rw [chunkList_cons] at hc
      rcases List.mem_cons.mp hc with h | h
      · subst h; exact List.length_take_le ..
      · exact chunkList_mem_length_le b' (rest.drop b') c h
termination_by xs => xs.length
decreasing_by simp only [List.length_drop, List.length_cons]; omega

/-- A positive batch size chunks a nonempty list into at least one chunk. -/
theorem chunkList_ne_nil (b' : Nat) (xs : List α) (hxs : xs ≠ []) :
    chunkList (b' + 1) xs ≠ [] := by
  cases xs with
  | nil => exact absurd rfl hxs
  | cons x rest => rw [chunkList_cons]; simp

/-- Every chunk except possibly the last has exactly the batch size. -/
theorem chunkList_dropLast_length (b' : Nat) :
    (xs : List α) → ∀ c ∈ (chunkList (b' + 1) xs).dropLast, c.length = b' + 1
  | [] => by simp [chunkList_nil]
  | x :: rest => by
      intro c hc
      rw [chunkList_cons] at hc
      by_cases hr : rest.drop b' = []
      · rw [hr, chunkList_nil] at hc
        simp at hc
      · have hne : chunkList (b' + 1) (rest.drop b') ≠ [] :=
          chunkList_ne_nil b' (rest.drop b') hr
        rw [List.dropLast_cons_of_ne_nil hne] at hc
        rcases List.mem_cons.mp hc with h | h
        · subst h
          have hlen : b' < rest.length := by
            by_contra hle
            push_neg at hle
            exact hr (List.drop_eq_nil_of_le hle)
          rw [List.length_take, List.length_cons]
          omega
        · exact chunkList_dropLast_length b' (rest.drop b') c h
termination_by xs => xs.length
decreasing_by simp only [List.length_drop, List.length_cons]; omega

/-- Elements of chunks are elements of the original list. -/
theorem chunkList_subset (b : Nat) :
    (xs : List α) → ∀ c ∈ chunkList b xs, ∀ a ∈ c, a ∈ xs
  | [] => by simp [chunkList_nil]
  | x :: rest => by
      intro c hc a ha
      match b with
      | 0 =>
        rw [show chunkList 0 (x :: rest) = [] from rfl] at hc
        simp at hc
      | b' + 1 =>
        rw [chunkList_cons] at hc
        rcases List.mem_cons.mp hc with h | h
        · subst h; exact List.take_subset _ _ ha
        · have hmem : a ∈ rest.drop b' :=
            chunkList_subset (b' + 1) (rest.drop b') c h a ha
          exact List.mem_cons_of_mem x (List.drop_subset b' rest hmem)
termination_by xs => xs.length
decreasing_by all_goals simp only [List.length_drop, List.length_cons]; omega

/-- Folding chunk results with append is the flattened map over chunks. -/
theorem foldl_append_flatten (g : α → List β) :
    (l : List α) → (acc : List β) →
      l.foldl (fun r c => r ++ g c) acc = acc ++ (l.map g).flatten
  | [], acc => by simp
  | c :: l, acc => by
      rw [List.foldl_cons, foldl_append_flatten g l (acc ++ g c)]
      simp [List.append_assoc]

/-- With a positive batch size, chunked analysis is a plain map over the
input: the classification of text i lands at result index i. -/
theorem analyze_batch_eq_map (scores : String → ℚ × ℚ) (b' : Nat)
    (texts : List String) :
    analyze_batch scores (b' + 1) texts = texts.map (analyzeItem scores) := by
  rw [analyze_batch, foldl_append_flatten, List.nil_append]
  rw [← List.map_flatten, chunkList_flatten]

/-- The classification of a member text is a member of the batch output. -/
theorem analyzeItem_mem_analyze_batch (scores : String → ℚ × ℚ) (b' : Nat)
    (t : String) (texts : List String) (ht : t ∈ texts) :
    analyzeItem scores t ∈ analyze_batch scores (b' + 1) texts := by
  rw [analyze_batch_eq_map]
  exact List.mem_map_of_mem _ ht

/-- Every batch result is the classification of some input text, for any
batch size (vacuous at batch size 0, where the modelled chunking is empty). -/
theorem analyze_batch_mem (scores : String → ℚ × ℚ) (b : Nat)
    (texts : List String) :
    ∀ r ∈ analyze_batch scores b texts, ∃ t ∈ texts, r = analyzeItem scores t := by
  intro r hr
  rw [analyze_batch, foldl_append_flatten, List.nil_append, List.mem_flatten] at hr
  obtain ⟨l, hl, hrl⟩ := hr
  rw [List.mem_map] at hl
  obtain ⟨chunk, hchunk, rfl⟩ := hl
  rw [List.mem_map] at hrl
  obtain ⟨t, ht, rfl⟩ := hrl
  exact ⟨t, chunkList_subset b texts chunk hchunk t ht, rfl⟩

/-- Argmax bookkeeping of models.py lines 48-54 on a probability row that
sums to 1: the label is NEGATIVE exactly when index 0 carries the maximum
(torch argmax prefers the first index on a tie), the score is the chosen
label's probability mass, and that mass is at least one half. -/
theorem mkResult_argmax (t : String) (p : ℚ × ℚ) (hsum : p.1 + p.2 = 1) :
    ((mkResult t p).label = Label.NEGATIVE ↔ p.2 ≤ p.1) ∧
    (mkResult t p).score =
      (if (mkResult t p).label = Label.NEGATIVE then p.1 else p.2) ∧
    (1 / 2 : ℚ) ≤ (mkResult t p).score := by
  by_cases h : p.1 < p.2
  · have hlab : (mkResult t p).label = Label.POSITIVE := by simp [mkResult, h]
    have hscore : (mkResult t p).score = p.2 := by simp [mkResult, h]
    refine ⟨?_, ?_, ?_⟩
    · rw [hlab]
      constructor
      · intro hx; exact absurd hx (by decide)
      · intro hge; exact absurd hge (not_le.mpr h)
    · rw [hlab, hscore,
        if_neg (show ¬(Label.POSITIVE = Label.NEGATIVE) by decide)]
    · rw [hscore]; linarith
  · have h2 : p.2 ≤ p.1 := not_lt.mp h
    have hlab : (mkResult t p).label = Label.NEGATIVE := by simp [mkResult, h]
    have hscore : (mkResult t p).score = p.1 := by simp [mkResult, h]
    refine ⟨?_, ?_, ?_⟩
    · rw [hlab]
      exact ⟨fun _ => h2, fun _ => rfl⟩
    · rw [hlab, hscore, if_pos rfl]
    · rw [hscore]; linarith

/-- The result text of a classification is the classified text. -/
theorem analyzeItem_text (scores : String → ℚ × ℚ) (t : String) :
    (analyzeItem scores t).text = t := by
  simp [analyzeItem, mkResult]

/-- If every chunk before some failing chunk succeeds, the loop of
`analyze_batchE` stops at the failing chunk and returns its error, whatever
results were already accumulated. -/
theorem analyze_batchE_go_error (modelRun : List String → Except ε (List (ℚ × ℚ))) :
    (pre : List (List String)) → ∀ (chunk : List String) (suf : List (List String))
      (acc : List ReviewResult) (e : ε),
      (∀ c ∈ pre, (modelRun c).isOk = true) →
      modelRun chunk = Except.error e →
      analyze_batchE_go modelRun (pre ++ chunk :: suf) acc = Except.error e
  | [] => by
      intro chunk suf acc e _ herr
      simp [analyze_batchE_go, herr]
  | c :: pre => by
      intro chunk suf acc e hpre herr
      have hc : (modelRun c).isOk = true := hpre c (List.mem_cons_self ..)
      obtain ⟨rows, hrows⟩ : ∃ rows, modelRun c = Except.ok rows := by
        cases hmc : modelRun c with
        | error e2 => rw [hmc] at hc; simp [Except.isOk, Except.toBool] at hc
        | ok rows => exact ⟨rows, rfl⟩
      rw [List.cons_append]
      rw [show analyze_batchE_go modelRun (c :: (pre ++ chunk :: suf)) acc =
          analyze_batchE_go modelRun (pre ++ chunk :: suf)
            (acc ++ (c.zip rows).map (fun p => mkResult p.1 p.2)) by
        simp [analyze_batchE_go, hrows]]
      exact analyze_batchE_go_error modelRun pre chunk suf _ e
        (fun d hd => hpre d (List.mem_cons_of_mem _ hd)) herr

/-- The loop of `analyze_batchE` only returns a result list when the model
succeeded on every chunk. -/
theorem analyze_batchE_go_ok (modelRun : List String → Except ε (List (ℚ × ℚ))) :
    (chunks : List (List String)) → ∀ (acc : List ReviewResult)
      (l : List ReviewResult),
      analyze_batchE_go modelRun chunks acc = Except.ok l →
      ∀ c ∈ chunks, ∃ rows, modelRun c = Except.ok rows
  | [] => by intro acc l _ c hc; simp at hc
  | chunk :: rest => by
      intro acc l h c hc
      cases hmc : modelRun chunk with
      | error e =>
          rw [show analyze_batchE_go modelRun (chunk :: rest) acc = Except.error e by
            simp [analyze_batchE_go, hmc]] at h
          exact absurd h (by simp)
      | ok rows =>
          rw [show analyze_batchE_go modelRun (chunk :: rest) acc =
              analyze_batchE_go modelRun rest
                (acc ++ (chunk.zip rows).map (fun p => mkResult p.1 p.2)) by
            simp [analyze_batchE_go, hmc]] at h
          rcases List.mem_cons.mp hc with rfl | hmem
          · exact ⟨rows, hmc⟩
          · exact analyze_batchE_go_ok modelRun rest _ l h c hmem

/-- Every result label is one of the two labels, so the two label counts
partition the result list. -/
theorem countP_pos_add_countP_neg (results : List ReviewResult) :
    results.countP (fun r => r.label == Label.POSITIVE) +
      results.countP (fun r => r.label == Label.NEGATIVE) = results.length := by
  induction results with
  | nil => rfl
  | cons r rs ih =>
      rw [List.countP_cons, List.countP_cons, List.length_cons]
      cases hlab : r.label <;> simp +decide [hlab] <;> omega

/-- Concrete scoring function used by the witnesses: text "a" is scored
(3/4, 1/4), every other text (1/4, 3/4). -/
def sW : String → ℚ × ℚ :=
  fun t => if t = "a" then (3 / 4, 1 / 4) else (1 / 4, 3 / 4)

/-- A second concrete scoring function agreeing with `sW` on "a" only. -/
def sW2 : String → ℚ × ℚ :=
  fun t => if t = "a" then (3 / 4, 1 / 4) else (0, 1)

/-- Concrete fallible chunk classifier used by the witnesses: it raises on
the chunk ["b"] and otherwise returns one (1, 0) row per text. -/
def modelW : List String → Except String (List (ℚ × ℚ)) :=
  fun chunk =>
    if chunk = ["b"] then Except.error "boom"
    else Except.ok (chunk.map (fun _ => (1, 0)))

/-- C1: for every input list of texts and every batch size ≥ 1,
`analyze_batch` returns a list of exactly the input's length, and the
result at index i is the classification of the input text at index i,
regardless of where the batch boundaries fall. -/
theorem C1_analyze_batch_preserves_length_and_order
    (scores : String → ℚ × ℚ) (b : Nat) (texts : List String) (hb : 1 ≤ b) :
    (analyze_batch scores b texts).length = texts.length ∧
    ∀ i : Nat, (analyze_batch scores b texts)[i]? =
      (texts[i]?).map (analyzeItem scores) := by
  obtain ⟨b', rfl⟩ : ∃ b', b = b' + 1 := ⟨b - 1, by omega⟩
  rw [analyze_batch_eq_map]
  exact ⟨List.length_map .., fun i => List.getElem?_map ..⟩

/-- Witness for C1 at batch size 2 on a three-element input. -/
theorem C1_witness :
    (analyze_batch sW 2 ["a", "b", "c"]).length = 3 ∧
    (analyze_batch sW 2 ["a", "b", "c"])[1]? = some (analyzeItem sW "b") := by
  have h := C1_analyze_batch_preserves_length_and_order sW 2 ["a", "b", "c"]
    (by decide)
  exact ⟨by rw [h.1]; rfl, by rw [h.2 1]; rfl⟩

/-- C2: the claim says a CSV that parses but fails validation is answered
with HTTP 400 carrying the validator's message.  The code instead answers
500: the `HTTPException(400, validation_error)` is raised inside the `try:`
block of main.py and `except Exception` catches it (HTTPException is an
Exception subclass), re-raising
`HTTPException(500, "Error processing CSV: " + str(e))`.  Evaluated here on
a well-formed .csv upload whose parsed table lacks the review column. -/
theorem C2_missing_column_yields_500_not_400 :
    analyze_reviews (fun _ => (1, 0)) "reviews.csv"
      (Except.ok { columns := ["text"], cells := [[some "great"]] }) =
    EndpointResult.httpError 500
      ("Error processing CSV: 400: CSV file must contain a \x27review\x27 column") := by
  rfl

/-- C3: with any batch size ≥ 1, the chunks formed by `analyze_batch` are
contiguous non-overlapping slices whose concatenation is the whole input
(no gaps, no overlap), each of size at most the batch size, and every
chunk except possibly the last has exactly the batch size. -/
theorem C3_chunks_partition_input (b : Nat) (texts : List String)
    (hb : 1 ≤ b) :
    (chunkList b texts).flatten = texts ∧
    (∀ c ∈ chunkList b texts, c.length ≤ b) ∧
    (∀ c ∈ (chunkList b texts).dropLast, c.length = b) := by
  obtain ⟨b', rfl⟩ : ∃ b', b = b' + 1 := ⟨b - 1, by omega⟩
  exact ⟨chunkList_flatten b' texts, chunkList_mem_length_le b' texts,
    chunkList_dropLast_length b' texts⟩

/-- Witness for C3 at batch size 2 on a three-element input: the flatten
equation, and the size facts applied to the first (full) chunk. -/
theorem C3_witness :
    (chunkList 2 ["a", "b", "c"]).flatten = ["a", "b", "c"] ∧
    (["a", "b"] : List String).length ≤ 2 ∧
    (["a", "b"] : List String).length = 2 := by
  have h := C3_chunks_partition_input 2 ["a", "b", "c"] (by decide)
  exact ⟨h.1, h.2.1 ["a", "b"] (by decide), h.2.2 ["a", "b"] (by decide)⟩

/-- C4: for any two batch sizes ≥ 1, `analyze_batch` produces identical
result lists on the same input: the chunking granularity does not change
any item's label or score. -/
theorem C4_batch_size_invariance (scores : String → ℚ × ℚ) (b1 b2 : Nat)
    (texts : List String) (h1 : 1 ≤ b1) (h2 : 1 ≤ b2) :
    analyze_batch scores b1 texts = analyze_batch scores b2 texts := by
  obtain ⟨b1p, rfl⟩ : ∃ b, b1 = b + 1 := ⟨b1 - 1, by omega⟩
  obtain ⟨b2p, rfl⟩ : ∃ b, b2 = b + 1 := ⟨b2 - 1, by omega⟩
  rw [analyze_batch_eq_map, analyze_batch_eq_map]

/-- Witness for C4: batch sizes 1 and 3 agree on a two-element input. -/
theorem C4_witness :
    analyze_batch sW 1 ["a", "b"] = analyze_batch sW 3 ["a", "b"] :=
  C4_batch_size_invariance sW 1 3 ["a", "b"] (by decide) (by decide)

/-- C5: `validate_csv` answers the missing-column message when the review
column is absent, the empty-dataset message when the column is present but
there are no rows, passes when the column is present and there is at least
one row, and is a pure function of the table's shape (columns and row
count). -/
theorem C5_validate_csv_cases (df : DataFrame) :
    ("review" ∉ df.columns →
      validate_csv df = some "CSV file must contain a \x27review\x27 column") ∧
    ("review" ∈ df.columns → df.nrows = 0 →
      validate_csv df = some "CSV file is empty") ∧
    ("review" ∈ df.columns → 0 < df.nrows → validate_csv df = none) ∧
    (∀ df2 : DataFrame, df.columns = df2.columns → df.nrows = df2.nrows →
      validate_csv df = validate_csv df2) := by
  refine ⟨fun h => ?_, fun h h0 => ?_, fun h h0 => ?_, fun df2 hc hn => ?_⟩
  · simp [validate_csv, h]
  · simp [validate_csv, h, h0]
  · have hcols : df.columns ≠ [] := List.ne_nil_of_mem h
    have hlen : df.columns.length ≠ 0 := fun hz =>
      hcols (List.length_eq_zero.mp hz)
    simp [validate_csv, h, hlen]
    omega
  · simp only [validate_csv, hc, hn]

/-- Witness for C5 on three concrete tables: one without the review column,
one with the column and no rows, one with the column and one row. -/
theorem C5_witness :
    validate_csv { columns := ["text"], cells := [[some "x"]] } =
      some "CSV file must contain a \x27review\x27 column" ∧
    validate_csv { columns := ["review"], cells := [] } =
      some "CSV file is empty" ∧
    validate_csv { columns := ["review"], cells := [[some "nice"]] } = none := by
  refine ⟨(C5_validate_csv_cases _).1 (by decide),
    (C5_validate_csv_cases { columns := ["review"], cells := [] }).2.1
      (by decide) rfl,
    (C5_validate_csv_cases { columns := ["review"], cells := [[some "nice"]] }).2.2.1
      (by decide) (by decide)⟩

/-- C6: assuming each text's score row is a two-class softmax distribution,
every item of the batch output carries label NEGATIVE exactly when index 0
holds the maximum probability, its score is the probability mass of the
chosen label, and that score is at least one half. -/
theorem C6_argmax_label_and_score (scores : String → ℚ × ℚ) (b : Nat)
    (texts : List String) (hd : ∀ t ∈ texts, IsDistrib (scores t)) :
    ∀ r ∈ analyze_batch scores b texts,
      (r.label = Label.NEGATIVE ↔ (scores r.text).2 ≤ (scores r.text).1) ∧
      r.score =
        (if r.label = Label.NEGATIVE then (scores r.text).1
         else (scores r.text).2) ∧
      (1 / 2 : ℚ) ≤ r.score := by
  intro r hr
  obtain ⟨t, ht, hreq⟩ := analyze_batch_mem scores b texts r hr
  subst hreq
  simp only [analyzeItem]
  rw [show (mkResult t (scores t)).text = t from rfl]
  exact mkResult_argmax t (scores t) (hd t ht).2.2

/-- Witness for C6 at the classification of "a" under `sW`. -/
theorem C6_witness :
    ((analyzeItem sW "a").label = Label.NEGATIVE ↔
      (sW (analyzeItem sW "a").text).2 ≤ (sW (analyzeItem sW "a").text).1) ∧
    (analyzeItem sW "a").score =
      (if (analyzeItem sW "a").label = Label.NEGATIVE
       then (sW (analyzeItem sW "a").text).1
       else (sW (analyzeItem sW "a").text).2) ∧
    (1 / 2 : ℚ) ≤ (analyzeItem sW "a").score := by
  have hd : ∀ t ∈ ["a"], IsDistrib (sW t) := by
    intro t ht
    rw [List.mem_singleton] at ht
    subst ht
    rw [show sW "a" = (3 / 4, 1 / 4) from rfl]
    exact ⟨by norm_num, by norm_num, by norm_num⟩
  exact C6_argmax_label_and_score sW 1 ["a"] hd (analyzeItem sW "a")
    (analyzeItem_mem_analyze_batch sW 0 "a" ["a"] (by decide))

/-- C7: the aggregator reports per-label counts, reports for each label
with a positive count the arithmetic mean of that label's scores, and
reports exactly 0 (not an error and not an undefined value) for a label
with no occurrences — the division is guarded by the count check. -/
theorem C7_aggregator_guarded_means (results : List ReviewResult) :
    (summarize results).total_reviews = results.length ∧
    (summarize results).positive_count = countLabel Label.POSITIVE results ∧
    (summarize results).negative_count = countLabel Label.NEGATIVE results ∧
    (countLabel Label.POSITIVE results = 0 →
      (summarize results).positive_avg_confidence = 0) ∧
    (0 < countLabel Label.POSITIVE results →
      (summarize results).positive_avg_confidence =
        sumScores Label.POSITIVE results /
          (countLabel Label.POSITIVE results : ℚ)) ∧
    (countLabel Label.NEGATIVE results = 0 →
      (summarize results).negative_avg_confidence = 0) ∧
    (0 < countLabel Label.NEGATIVE results →
      (summarize results).negative_avg_confidence =
        sumScores Label.NEGATIVE results /
          (countLabel Label.NEGATIVE results : ℚ)) := by
  unfold summarize countLabel sumScores
  rw [List.countP_eq_length_filter, List.countP_eq_length_filter]
  refine ⟨rfl, rfl, rfl, fun h => ?_, fun h => ?_, fun h => ?_, fun h => ?_⟩
  · simp only [h]
    rfl
  · simp only [if_pos h]
  · simp only [h]
    rfl
  · simp only [if_pos h]

/-- Witness for C7 on a one-element all-positive result list: the negative
mean is 0 and the positive mean is the guarded quotient. -/
theorem C7_witness :
    (summarize [{ text := "a", label := Label.POSITIVE, score := 1 }]).negative_avg_confidence = 0 ∧
    (summarize [{ text := "a", label := Label.POSITIVE, score := 1 }]).positive_avg_confidence =
      sumScores Label.POSITIVE [{ text := "a", label := Label.POSITIVE, score := 1 }] /
        (countLabel Label.POSITIVE [{ text := "a", label := Label.POSITIVE, score := 1 }] : ℚ) := by
  have h := C7_aggregator_guarded_means
    [{ text := "a", label := Label.POSITIVE, score := 1 }]
  exact ⟨h.2.2.2.2.2.1 (by decide), h.2.2.2.2.1 (by decide)⟩

/-- C8: if the classifier fails on a chunk after succeeding on all earlier
chunks, `analyze_batch` propagates that failure unchanged, and a result
list is only ever returned when every chunk succeeded — no partial output
from earlier chunks survives a later failure. -/
theorem C8_error_propagation_atomic (ε : Type)
    (modelRun : List String → Except ε (List (ℚ × ℚ))) (b : Nat)
    (texts : List String) :
    (∀ (pre : List (List String)) (chunk : List String)
        (suf : List (List String)) (e : ε),
      chunkList b texts = pre ++ chunk :: suf →
      (∀ c ∈ pre, (modelRun c).isOk = true) →
      modelRun chunk = Except.error e →
      analyze_batchE modelRun b texts = Except.error e) ∧
    (∀ l : List ReviewResult, analyze_batchE modelRun b texts = Except.ok l →
      ∀ c ∈ chunkList b texts, ∃ rows, modelRun c = Except.ok rows) := by
  constructor
  · intro pre chunk suf e hdecomp hpre herr
    rw [analyze_batchE, hdecomp]
    exact analyze_batchE_go_error modelRun pre chunk suf [] e hpre herr
  · intro l hok c hc
    exact analyze_batchE_go_ok modelRun (chunkList b texts) [] l hok c hc

/-- Witness for C8: with batch size 1 on ["a", "b"], the model `modelW`
succeeds on chunk ["a"] and raises on chunk ["b"]; the whole run returns
that error and no result list. -/
theorem C8_witness :
    analyze_batchE modelW 1 ["a", "b"] = Except.error "boom" :=
  (C8_error_propagation_atomic String modelW 1 ["a", "b"]).1
    [["a"]] ["b"] [] "boom" (by decide) (by decide) rfl

/-- C9: `analyze_batch` is deterministic — its output depends only on the
scoring function's values on the input texts, so two invocations with the
same input, batch size, and classifier behaviour yield identical labels
and scores item by item. -/
theorem C9_deterministic_results (s1 s2 : String → ℚ × ℚ) (b : Nat)
    (texts : List String) (hb : 1 ≤ b) (h : ∀ t ∈ texts, s1 t = s2 t) :
    analyze_batch s1 b texts = analyze_batch s2 b texts := by
  obtain ⟨b', rfl⟩ : ∃ c, b = c + 1 := ⟨b - 1, by omega⟩
  rw [analyze_batch_eq_map, analyze_batch_eq_map]
  exact List.map_congr_left fun t ht => by
    rw [analyzeItem, analyzeItem, h t ht]

/-- Witness for C9: `sW` and `sW2` agree on the single input "a", so the
two runs coincide. -/
theorem C9_witness :
    analyze_batch sW 1 ["a"] = analyze_batch sW2 1 ["a"] :=
  C9_deterministic_results sW sW2 1 ["a"] (by decide)
    (fun t ht => by
      rw [List.mem_singleton] at ht
      subst ht
      rfl)

/-- C10: every label produced by `analyze_batch` is POSITIVE or NEGATIVE,
so the aggregator's positive and negative counts always add up to
`total_reviews`: no item is dropped or double-counted. -/
theorem C10_label_counts_partition (scores : String → ℚ × ℚ) (b : Nat)
    (texts : List String) :
    (∀ r ∈ analyze_batch scores b texts,
      r.label = Label.POSITIVE ∨ r.label = Label.NEGATIVE) ∧
    (summarize (analyze_batch scores b texts)).positive_count +
      (summarize (analyze_batch scores b texts)).negative_count =
      (summarize (analyze_batch scores b texts)).total_reviews := by
  constructor
  · intro r _
    cases hl : r.label
    · exact Or.inr rfl
    · exact Or.inl rfl
  · exact countP_pos_add_countP_neg (analyze_batch scores b texts)

/-- Witness for C10 on the single input "a" at batch size 1. -/
theorem C10_witness :
    ((analyzeItem sW "a").label = Label.POSITIVE ∨
      (analyzeItem sW "a").label = Label.NEGATIVE) ∧
    (summarize (analyze_batch sW 1 ["a"])).positive_count +
      (summarize (analyze_batch sW 1 ["a"])).negative_count =
      (summarize (analyze_batch sW 1 ["a"])).total_reviews := by
  have h := C10_label_counts_partition sW 1 ["a"]
  exact ⟨h.1 (analyzeItem sW "a")
    (analyzeItem_mem_analyze_batch sW 0 "a" ["a"] (by decide)), h.2⟩

end SentimentDashboard
